import Mathlib

/-!
Shallow embedding of `has.py`, a command-line tool that checks for the
presence of command-line tools and reports a best-effort version string
for each.  Python strings are modelled as `List Char`; the two external
primitives the program consumes — `shutil.which` (executable search-path
lookup) and `subprocess.run` (spawn an argv with a timeout and capture
its standard output and exit status) — are modelled as an `Env` oracle.
A `subprocess.run` call that raises (`SubprocessError`, which includes
`TimeoutExpired`, or `FileNotFoundError`) is modelled by the oracle
returning `none`; every place the program catches such an exception the
embedding handles the `none` case, so the embedded functions are total.
The embedded probe functions additionally return the list of argvs they
spawned, in order, so that claims about which subprocesses run are
statable.
-/

namespace Has

/-- Python strings are modelled as lists of characters (code points),
matching Python's `len` and slicing semantics. -/
abbrev Str := List Char

/-- View a Lean string literal as a Python string value. -/
def str (s : String) : Str := s.data

/-- The characters stripped by Python's `str.strip()` and matched by the
regex class `\s` (the ASCII whitespace characters). -/
def pyIsSpace (c : Char) : Bool :=
  c == ' ' || c == '\t' || c == '\n' || c == '\r' || c == '\x0b' || c == '\x0c'

/-- Python `s.strip()`: remove leading and trailing whitespace. -/
def pyStrip (s : Str) : Str :=
  ((s.dropWhile pyIsSpace).reverse.dropWhile pyIsSpace).reverse

/-- Python `s.split('\n')[0]`: everything before the first newline. -/
def firstLine (s : Str) : Str := s.takeWhile (fun c => c != '\n')

/-- `needle.isSubstrOf hay`: Python's `needle in hay` on strings. -/
def isSubstrOf (needle : Str) : Str → Bool
  | [] => needle.isPrefixOf []
  | c :: t => needle.isPrefixOf (c :: t) || isSubstrOf needle t

/-- The captured outcome of a `subprocess.run` invocation that completed:
its exit status and captured standard output (`text=True`). -/
structure RunResult where
  returncode : Int
  stdout : Str
deriving Repr, DecidableEq

/-- The external environment consumed by the program: `which` is the
executable search-path lookup (`shutil.which cmd` is truthy), and `run`
is `subprocess.run argv` with output capture and the 2-second timeout;
`run argv = none` models a raised and caught exception (spawn error or
timeout). -/
structure Env where
  which : Str → Bool
  run : List Str → Option RunResult

/-- The decoration strings computed once at startup by `setup_colors`. -/
structure Colors where
  reset : Str
  bold : Str
  red : Str
  green : Str
  yellow : Str

/-- The colors chosen when stdout is not an interactive terminal: all
decorations are empty strings. -/
def plainColors : Colors := ⟨[], [], [], [], []⟩

def CHECKMARK : Str := str "✓"

def FANCYX : Str := str "✗"

/-- `PASS`: bold green checkmark followed by reset. -/
def passMark (k : Colors) : Str := k.bold ++ k.green ++ CHECKMARK ++ k.reset

/-- `FAIL`: bold red cross followed by reset. -/
def failMark (k : Colors) : Str := k.bold ++ k.red ++ FANCYX ++ k.reset

def BINARY_NAME : Str := str "has"

def VERSION : Str := str "v2.0.0"

/-- The text printed by `show_help` (with `HELP_DECORATION = ""`). -/
def show_help (k : Colors) : Str :=
  str "has - checks presence of various command line tools\nusage:\n  has tool [tool]...\n\nexamples:\n  has git curl node\n  has -v\n  has --help"
    ++ k.reset

/-- The ordered flag list `version_flags` from `get_command_version`. -/
def version_flags : List Str :=
  [str "--version", str "-version", str "-v", str "version", str "-V"]

/-- The argv of the `node` special case:
`[cmd, "-e", "console.log(process.version)"]`. -/
def nodeArgv (cmd : Str) : List Str :=
  [cmd, str "-e", str "console.log(process.version)"]

/-- The argv of the shell-builtin special case: `["bash", "-c", "type <cmd>"]`. -/
def builtinArgv (cmd : Str) : List Str :=
  [str "bash", str "-c", str "type " ++ cmd]

/-- The hard-coded list of shell builtin names from `get_command_version`. -/
def shellBuiltins : List Str :=
  [str "type", str "alias", str "bg", str "bind", str "break", str "builtin",
   str "caller", str "cd", str "command", str "compgen", str "complete",
   str "continue", str "declare", str "dirs", str "disown", str "echo",
   str "enable", str "eval", str "exec", str "exit", str "export", str "fc",
   str "fg", str "getopts", str "hash", str "help", str "history", str "jobs",
   str "kill", str "let", str "local", str "logout", str "mapfile", str "popd",
   str "printf", str "pushd", str "pwd", str "read", str "readarray",
   str "readonly", str "return", str "set", str "shift", str "shopt",
   str "source", str "suspend", str "test", str "times", str "trap",
   str "typeset", str "ulimit", str "umask", str "unalias", str "unset",
   str "wait"]

/-- The `for flag in version_flags` loop of `get_command_version`: try
`[cmd, flag]` for each flag in order; on exit status zero and non-empty
stdout return the first line of the stripped stdout and stop; on any
other completed outcome, or on a caught exception (`none`), continue with
the next flag.  Also returns the list of argvs spawned, in order. -/
def tryFlags (env : Env) (cmd : Str) : List Str → Option Str × List (List Str)
  | [] => (none, [])
  | flag :: rest =>
    match env.run [cmd, flag] with
    | some r =>
      if r.returncode = 0 ∧ r.stdout ≠ [] then
        (some (firstLine (pyStrip r.stdout)), [[cmd, flag]])
      else
        ((tryFlags env cmd rest).1, [cmd, flag] :: (tryFlags env cmd rest).2)
    | none => ((tryFlags env cmd rest).1, [cmd, flag] :: (tryFlags env cmd rest).2)

/-- `get_command_version(cmd)`: the `node` special case first (on exit
status zero, return the stripped stdout — even when empty), then the
shell-builtin special case (return `"shell builtin"` only when the exit
status is zero and the output mentions a shell builtin), then the flag
sweep.  Returns the extracted version (`none` = Python `None`) together
with the list of argvs spawned, in order. -/
def get_command_version (env : Env) (cmd : Str) : Option Str × List (List Str) :=
  let nodeTrace : List (List Str) :=
    if cmd = str "node" then [nodeArgv cmd] else []
  let nodeResult : Option Str :=
    if cmd = str "node" then
      match env.run (nodeArgv cmd) with
      | some r => if r.returncode = 0 then some (pyStrip r.stdout) else none
      | none => none
    else none
  match nodeResult with
  | some v => (some v, nodeTrace)
  | none =>
    let bTrace : List (List Str) :=
      if cmd ∈ shellBuiltins then [builtinArgv cmd] else []
    let bResult : Option Str :=
      if cmd ∈ shellBuiltins then
        match env.run (builtinArgv cmd) with
        | some r =>
          if r.returncode = 0 ∧ isSubstrOf (str "shell builtin") r.stdout then
            some (str "shell builtin")
          else none
        | none => none
      else none
    match bResult with
    | some v => (some v, nodeTrace ++ bTrace)
    | none =>
      ((tryFlags env cmd version_flags).1,
        nodeTrace ++ bTrace ++ (tryFlags env cmd version_flags).2)

/-- The effect of `re.sub('^' + re.escape(cmd) + '\\s*(\\([^)]*\\))?\\s*', '', v)`
in `detect_command`: when `v` starts with the literal command name
(case-sensitively), remove that name, then a maximal run of whitespace,
then — when the next character is `(` and a `)` occurs later — everything
through the first `)`, then a maximal run of whitespace; otherwise `v` is
unchanged. -/
def stripLeadingName (cmd v : Str) : Str :=
  if cmd.isPrefixOf v then
    let r1 := (v.drop cmd.length).dropWhile pyIsSpace
    if r1.head? = some '(' then
      if ')' ∈ r1.tail then
        ((r1.tail.dropWhile (fun c => c != ')')).drop 1).dropWhile pyIsSpace
      else r1
    else r1
  else v

/-- The truncation step of `detect_command`: when the (stripped) version
is non-empty and longer than 50 characters, keep the first 47 characters
and append `"..."`. -/
def truncateVersion (v : Str) : Str :=
  if v ≠ [] ∧ 50 < v.length then v.take 47 ++ str "..." else v

/-- The version text as displayed for a non-empty extracted version `v`:
leading command name stripped, then truncated. -/
def displayVersion (cmd v : Str) : Str := truncateVersion (stripLeadingName cmd v)

/-- `detect_command(cmd)`: returns the boolean result, the single line
printed (with `NAME_DECORATION = ""` and `VERSION_DECORATION = ""` as in
the source), and the argvs spawned. -/
def detect_command (k : Colors) (env : Env) (cmd : Str) :
    Bool × Str × List (List Str) :=
  if env.which cmd then
    match (get_command_version env cmd).1 with
    | some v =>
      if v ≠ [] then
        (true,
         passMark k ++ str " " ++ cmd ++ k.reset ++ str " "
           ++ displayVersion cmd v ++ k.reset,
         (get_command_version env cmd).2)
      else
        (true, passMark k ++ str " " ++ cmd ++ k.reset,
         (get_command_version env cmd).2)
    | none =>
      (true, passMark k ++ str " " ++ cmd ++ k.reset,
       (get_command_version env cmd).2)
  else
    (false, failMark k ++ str " " ++ cmd ++ k.reset ++ str " command not found",
     [])

/-- Python `s.startswith('-')`. -/
def pyStartsWithDash (s : Str) : Bool :=
  match s with
  | '-' :: _ => true
  | _ => false

/-- The probing loop of `main`: run `detect_command` on each name in
order, collect the printed lines, and count the failures. -/
def runAll (k : Colors) (env : Env) : List Str → Nat × List Str
  | [] => (0, [])
  | c :: cs =>
    ((if (detect_command k env c).1 then 0 else 1) + (runAll k env cs).1,
     (detect_command k env c).2.1 :: (runAll k env cs).2)

/-- `main`, as a function of the argument list `sys.argv[1:]`: returns
the exit status passed to `sys.exit` and the lines printed, in order. -/
def main (k : Colors) (env : Env) (args : List Str) : Nat × List Str :=
  match args with
  | [] => (1, [show_help k])
  | a1 :: _ =>
    if pyStartsWithDash a1 then
      if a1 = str "-v" ∨ a1 = str "--version" then
        (0, [BINARY_NAME ++ str " " ++ VERSION])
      else if a1 = str "-h" ∨ a1 = str "--help" then
        (0, [show_help k])
      else
        (1, [str "Unknown option: " ++ a1, show_help k])
    else
      runAll k env args

/-- An individual flag attempt that produces no result: the spawn raised
(`none`), or completed with a non-zero exit status or empty stdout. -/
def attemptFails (env : Env) (cmd flag : Str) : Prop :=
  match env.run [cmd, flag] with
  | none => True
  | some r => ¬(r.returncode = 0 ∧ r.stdout ≠ [])

/-- An environment where no executable resolves on the search path and
every spawn raises. -/
def envAllMissing : Env := ⟨fun _ => false, fun _ => none⟩

/-- An environment where only `git` resolves, and `git --version` prints
`git version 2.0` on a line of its own with exit status 0. -/
def envGit : Env :=
  ⟨fun s => s == str "git",
   fun argv =>
     if argv = [str "git", str "--version"] then
       some ⟨0, str "git version 2.0\n"⟩
     else none⟩

/-- An environment where only `git` resolves, and `git --version` prints
exactly `git` on a line of its own with exit status 0. -/
def envGitBare : Env :=
  ⟨fun s => s == str "git",
   fun argv =>
     if argv = [str "git", str "--version"] then some ⟨0, str "git\n"⟩
     else none⟩

/-- An environment where only `node` resolves, and the `node` special
case exits with status 0 printing only whitespace. -/
def envNode : Env :=
  ⟨fun s => s == str "node",
   fun argv =>
     if argv = nodeArgv (str "node") then some ⟨0, str " \n"⟩ else none⟩

/-- The boolean result of `detect_command` is exactly the search-path
lookup: version probing never changes it. -/
theorem detect_fst (k : Colors) (env : Env) (cmd : Str) :
    (detect_command k env cmd).1 = env.which cmd := by
  simp only [detect_command]
  cases h : env.which cmd
  · simp [h]
  · simp only [h, if_true]
    split <;> first | rfl | (split <;> rfl)

/-- The failure tally of the probing loop counts the names that do not
resolve on the search path. -/
theorem runAll_count (k : Colors) (env : Env) (cs : List Str) :
    (runAll k env cs).1 = cs.countP (fun c => !env.which c) := by
  induction cs with
  | nil => rfl
  | cons c t ih =>
    simp only [runAll, List.countP_cons, detect_fst, ih]
    cases h : env.which c <;> simp [h, Nat.add_comm]

/-- The probing loop prints one `detect_command` line per name, in order. -/
theorem runAll_lines (k : Colors) (env : Env) (cs : List Str) :
    (runAll k env cs).2 = cs.map (fun c => (detect_command k env c).2.1) := by
  induction cs with
  | nil => rfl
  | cons c t ih => simp [runAll, ih]

/-- A failing flag attempt is skipped: the sweep's value is the value of
the sweep over the remaining flags, and the attempt only adds its argv to
the spawn trace. -/
theorem tryFlags_skip (env : Env) (cmd g : Str) (L : List Str)
    (h : attemptFails env cmd g) :
    tryFlags env cmd (g :: L)
      = ((tryFlags env cmd L).1, [cmd, g] :: (tryFlags env cmd L).2) := by
  unfold attemptFails at h
  have e : tryFlags env cmd (g :: L) =
      match env.run [cmd, g] with
      | some r =>
        if r.returncode = 0 ∧ r.stdout ≠ [] then
          (some (firstLine (pyStrip r.stdout)), [[cmd, g]])
        else ((tryFlags env cmd L).1, [cmd, g] :: (tryFlags env cmd L).2)
      | none => ((tryFlags env cmd L).1, [cmd, g] :: (tryFlags env cmd L).2) := rfl
  rw [e]
  cases hr : env.run [cmd, g] with
  | none => rfl
  | some r =>
    rw [hr] at h
    simp [h]

/-- `dropWhile` over an append whose left part satisfies the predicate
everywhere continues into the right part. -/
theorem dropWhile_append_all (p : Char → Bool) (l₁ l₂ : List Char)
    (h : ∀ c ∈ l₁, p c = true) :
    (l₁ ++ l₂).dropWhile p = l₂.dropWhile p := by
  induction l₁ with
  | nil => rfl
  | cons c t ih =>
    rw [List.cons_append, List.dropWhile_cons, if_pos (h c (List.mem_cons_self c t))]
    exact ih fun x hx => h x (List.mem_cons_of_mem c hx)

/-- `dropWhile` leaves a list alone when its head fails the predicate. -/
theorem dropWhile_head_not (p : Char → Bool) (r : List Char)
    (h : ∀ c, r.head? = some c → p c = false) :
    r.dropWhile p = r := by
  cases r with
  | nil => rfl
  | cons c t => simp [List.dropWhile_cons, h c rfl]

/-- The regex substitution leaves a string alone when it does not start
with the command name. -/
theorem stripLeadingName_no_match (cmd v : Str) (h : cmd.isPrefixOf v = false) :
    stripLeadingName cmd v = v := by
  simp [stripLeadingName, h]

/-- C1: for every invocation whose first token does not start with `-`,
the status passed to `sys.exit` equals the number of listed command names
whose existence check failed, and is 0 exactly when every listed name was
found. -/
theorem c1_exit_counts_failures (k : Colors) (env : Env) (a1 : Str)
    (rest : List Str) (h : pyStartsWithDash a1 = false) :
    (main k env (a1 :: rest)).1 = (a1 :: rest).countP (fun c => !env.which c) ∧
    ((main k env (a1 :: rest)).1 = 0 ↔ ∀ c ∈ a1 :: rest, env.which c = true) := by
  have hm : main k env (a1 :: rest) = runAll k env (a1 :: rest) := by
    simp [main, h]
  rw [hm, runAll_count]
  refine ⟨rfl, ?_⟩
  rw [List.countP_eq_zero]
  constructor
  · intro hz c hc
    simpa using hz c hc
  · intro ha c hc
    simpa using ha c hc

/-- C1 witness: one missing tool gives exit status 1 and trips the
all-found equivalence at a concrete invocation. -/
theorem c1_exit_counts_failures_witness :
    (main plainColors envAllMissing [str "git"]).1
        = [str "git"].countP (fun c => !envAllMissing.which c) ∧
    ((main plainColors envAllMissing [str "git"]).1 = 0 ↔
      ∀ c ∈ [str "git"], envAllMissing.which c = true) :=
  c1_exit_counts_failures plainColors envAllMissing (str "git") [] (by decide)

/-- C2: a name that does not resolve on the search path yields
found=false, the not-found line (fail mark, name, "command not found"),
an empty spawn trace (no version-extraction strategy runs), and a tally
increment of exactly 1. -/
theorem c2_not_found (k : Colors) (env : Env) (cmd : Str)
    (h : env.which cmd = false) :
    (detect_command k env cmd).1 = false ∧
    (detect_command k env cmd).2.2 = [] ∧
    (detect_command k env cmd).2.1 =
      failMark k ++ str " " ++ cmd ++ k.reset ++ str " command not found" ∧
    ∀ cs, (runAll k env (cmd :: cs)).1 = (runAll k env cs).1 + 1 := by
  refine ⟨?_, ?_, ?_, ?_⟩
  · simp [detect_command, h]
  · simp [detect_command, h]
  · simp [detect_command, h]
  · intro cs
    have e : (runAll k env (cmd :: cs)).1 =
        (if env.which cmd then 0 else 1) + (runAll k env cs).1 := by
      simp [runAll, detect_fst]
    rw [e, h]
    simp [Nat.add_comm]

/-- C2 witness: probing a missing `git` at a concrete environment. -/
theorem c2_not_found_witness :
    (detect_command plainColors envAllMissing (str "git")).1 = false ∧
    (detect_command plainColors envAllMissing (str "git")).2.2 = [] ∧
    (detect_command plainColors envAllMissing (str "git")).2.1 =
      failMark plainColors ++ str " " ++ str "git" ++ plainColors.reset
        ++ str " command not found" ∧
    (runAll plainColors envAllMissing [str "git"]).1
        = (runAll plainColors envAllMissing []).1 + 1 :=
  ⟨(c2_not_found plainColors envAllMissing (str "git") (by decide)).1,
   (c2_not_found plainColors envAllMissing (str "git") (by decide)).2.1,
   (c2_not_found plainColors envAllMissing (str "git") (by decide)).2.2.1,
   (c2_not_found plainColors envAllMissing (str "git") (by decide)).2.2.2 []⟩

/-- C4: errors of individual version-probing attempts are contained: the
found bit depends only on the search-path lookup, never on any probe
outcome, and a failing flag attempt (spawn error, timeout, non-zero exit,
empty output — all the cases of `attemptFails`) contributes no result:
the sweep's value is that of the remaining flags alone. -/
theorem c4_errors_contained (k : Colors) (env : Env) (cmd : Str) :
    (detect_command k env cmd).1 = env.which cmd ∧
    ∀ f L, attemptFails env cmd f →
      (tryFlags env cmd (f :: L)).1 = (tryFlags env cmd L).1 := by
  refine ⟨detect_fst k env cmd, ?_⟩
  intro f L hf
  rw [tryFlags_skip env cmd f L hf]

/-- C4 witness: at an environment where every spawn raises, the found bit
still equals the lookup and a raising attempt contributes no result. -/
theorem c4_errors_contained_witness :
    (detect_command plainColors envAllMissing (str "git")).1
        = envAllMissing.which (str "git") ∧
    (tryFlags envAllMissing (str "git") [str "-v"]).1
        = (tryFlags envAllMissing (str "git") []).1 :=
  ⟨(c4_errors_contained plainColors envAllMissing (str "git")).1,
   (c4_errors_contained plainColors envAllMissing (str "git")).2
     (str "-v") [] (by trivial)⟩

/-- The flag sweep over a list whose initial segment consists of failing
attempts: the first succeeding flag (exit status 0, non-empty stdout)
determines the result, and the spawn trace stops at that flag. -/
theorem tryFlags_first_success (env : Env) (cmd f : Str) (r : RunResult)
    (hrun : env.run [cmd, f] = some r) (hrc : r.returncode = 0)
    (hout : r.stdout ≠ []) (fl2 : List Str) :
    ∀ fl1, (∀ g ∈ fl1, attemptFails env cmd g) →
      tryFlags env cmd (fl1 ++ f :: fl2) =
        (some (firstLine (pyStrip r.stdout)),
          (fl1 ++ [f]).map (fun g => [cmd, g])) := by
  intro fl1
  induction fl1 with
  | nil =>
    intro _
    have e : tryFlags env cmd ([] ++ f :: fl2) =
        match env.run [cmd, f] with
        | some r0 =>
          if r0.returncode = 0 ∧ r0.stdout ≠ [] then
            (some (firstLine (pyStrip r0.stdout)), [[cmd, f]])
          else ((tryFlags env cmd fl2).1, [cmd, f] :: (tryFlags env cmd fl2).2)
        | none => ((tryFlags env cmd fl2).1, [cmd, f] :: (tryFlags env cmd fl2).2) :=
      rfl
    rw [e, hrun]
    simp [hrc, hout]
  | cons g gs ih =>
    intro hfail
    have hg : attemptFails env cmd g := hfail g (List.mem_cons_self g gs)
    have hgs : ∀ x ∈ gs, attemptFails env cmd x :=
      fun x hx => hfail x (List.mem_cons_of_mem g hx)
    rw [List.cons_append, tryFlags_skip env cmd g _ hg, ih hgs]
    simp

/-- C3: the generic flag sweep tries `--version`, `-version`, `-v`,
`version`, `-V` in exactly that fixed order, each as the command's sole
argument; at the first flag whose process exits with status 0 and
non-empty stdout, the sweep returns the first line of the
whitespace-trimmed stdout, and no later flag is attempted — the spawn
trace is exactly the argvs through that flag. -/
theorem c3_flag_sweep (env : Env) (cmd : Str) (fl1 fl2 : List Str) (f : Str)
    (r : RunResult)
    (hsplit : version_flags = fl1 ++ f :: fl2)
    (hfail : ∀ g ∈ fl1, attemptFails env cmd g)
    (hrun : env.run [cmd, f] = some r)
    (hrc : r.returncode = 0) (hout : r.stdout ≠ []) :
    tryFlags env cmd version_flags =
      (some (firstLine (pyStrip r.stdout)),
        (fl1 ++ [f]).map (fun g => [cmd, g])) := by
  rw [hsplit]
  exact tryFlags_first_success env cmd f r hrun hrc hout fl2 fl1 hfail

/-- C3 witness: `git --version` succeeds at the first flag, the sweep
returns the first line of the trimmed output, and only one argv is
spawned. -/
theorem c3_flag_sweep_witness :
    tryFlags envGit (str "git") version_flags =
      (some (firstLine (pyStrip (str "git version 2.0\n"))),
        [[str "git", str "--version"]]) := by
  have h := c3_flag_sweep envGit (str "git") []
    [str "-version", str "-v", str "version", str "-V"] (str "--version")
    ⟨0, str "git version 2.0\n"⟩ rfl (by simp) (by decide) rfl (by decide)
  simpa using h

/-- C5: when the version string left after prefix stripping is longer
than 50 characters, the displayed text is its first 47 characters
followed by the ellipsis marker `...` — exactly 50 characters in total;
a string of at most 50 characters is displayed unchanged. -/
theorem c5_truncation (cmd v0 : Str) :
    (50 < (stripLeadingName cmd v0).length →
      displayVersion cmd v0 = (stripLeadingName cmd v0).take 47 ++ str "..." ∧
      (displayVersion cmd v0).length = 50) ∧
    ((stripLeadingName cmd v0).length ≤ 50 →
      displayVersion cmd v0 = stripLeadingName cmd v0) := by
  constructor
  · intro h
    have hne : stripLeadingName cmd v0 ≠ [] := by
      intro he
      rw [he] at h
      simp at h
    have he : displayVersion cmd v0
        = (stripLeadingName cmd v0).take 47 ++ str "..." := by
      unfold displayVersion truncateVersion
      rw [if_pos ⟨hne, h⟩]
    have h3 : (str "...").length = 3 := rfl
    refine ⟨he, ?_⟩
    rw [he]
    simp only [List.length_append, List.length_take, h3]
    omega
  · intro h
    unfold displayVersion truncateVersion
    rw [if_neg (fun hcon => absurd hcon.2 (by omega))]

/-- C5 witness: a 60-character string is truncated to 47 characters plus
the marker, 50 characters in total. -/
theorem c5_truncation_witness :
    50 < (stripLeadingName (str "x") (List.replicate 60 'a')).length ∧
    (displayVersion (str "x") (List.replicate 60 'a')
        = (stripLeadingName (str "x") (List.replicate 60 'a')).take 47
            ++ str "..." ∧
      (displayVersion (str "x") (List.replicate 60 'a')).length = 50) :=
  ⟨by decide, (c5_truncation (str "x") (List.replicate 60 'a')).1 (by decide)⟩

/-- Evaluation of `stripLeadingName` when the residue after the name and
the leading whitespace opens a parenthesized group that closes. -/
theorem stripLeadingName_eval_paren (cmd v rest : Str)
    (hpre : cmd.isPrefixOf v = true)
    (h1 : (v.drop cmd.length).dropWhile pyIsSpace = '(' :: rest)
    (hmem : ')' ∈ rest) :
    stripLeadingName cmd v
      = ((rest.dropWhile (fun c => c != ')')).drop 1).dropWhile pyIsSpace := by
  simp [stripLeadingName, hpre, h1, hmem]

/-- Evaluation of `stripLeadingName` when the residue after the name and
the leading whitespace does not open a parenthesized group. -/
theorem stripLeadingName_eval_plain (cmd v r1 : Str)
    (hpre : cmd.isPrefixOf v = true)
    (h1 : (v.drop cmd.length).dropWhile pyIsSpace = r1)
    (hhead : r1.head? ≠ some '(') :
    stripLeadingName cmd v = r1 := by
  simp [stripLeadingName, hpre, h1, hhead]

/-- C6: post-processing removes a single leading occurrence of the
command name — matched case-sensitively and literally at the start —
together with an optional following parenthesized group and optional
whitespace: `curl (x86_64) 7.68.0` for `curl` becomes `7.68.0`; a string
not starting with the command name is left unchanged; and on a string of
the shape name‑whitespace‑(group)‑whitespace‑rest, or
name‑whitespace‑rest, exactly that prefix is removed. -/
theorem c6_strip_leading_name :
    stripLeadingName (str "curl") (str "curl (x86_64) 7.68.0") = str "7.68.0" ∧
    (∀ cmd v : Str, cmd.isPrefixOf v = false → stripLeadingName cmd v = v) ∧
    (∀ cmd ws a ws2 r : Str,
      (∀ c ∈ ws, pyIsSpace c = true) → ')' ∉ a →
      (∀ c ∈ ws2, pyIsSpace c = true) →
      (∀ c, r.head? = some c → pyIsSpace c = false) →
      stripLeadingName cmd (cmd ++ (ws ++ ('(' :: (a ++ (')' :: (ws2 ++ r))))))
        = r) ∧
    (∀ cmd ws r : Str,
      (∀ c ∈ ws, pyIsSpace c = true) →
      (∀ c, r.head? = some c → pyIsSpace c = false ∧ c ≠ '(') →
      stripLeadingName cmd (cmd ++ (ws ++ r)) = r) := by
  refine ⟨by decide, stripLeadingName_no_match, ?_, ?_⟩
  · intro cmd ws a ws2 r hws ha hws2 hr
    have hpre : cmd.isPrefixOf
        (cmd ++ (ws ++ ('(' :: (a ++ (')' :: (ws2 ++ r)))))) = true :=
      List.isPrefixOf_iff_prefix.mpr (List.prefix_append _ _)
    have h1 : ((cmd ++ (ws ++ ('(' :: (a ++ (')' :: (ws2 ++ r)))))).drop
          cmd.length).dropWhile pyIsSpace
        = '(' :: (a ++ (')' :: (ws2 ++ r))) := by
      rw [List.drop_left, dropWhile_append_all pyIsSpace ws _ hws,
        List.dropWhile_cons, if_neg (by decide)]
    have hmem : ')' ∈ a ++ (')' :: (ws2 ++ r)) :=
      List.mem_append.mpr (Or.inr (List.mem_cons_self _ _))
    have hane : ∀ c ∈ a, (c != ')') = true :=
      fun c hc => bne_iff_ne.mpr (fun he => ha (he ▸ hc))
    have h2 : (a ++ (')' :: (ws2 ++ r))).dropWhile (fun c => c != ')')
        = ')' :: (ws2 ++ r) := by
      rw [dropWhile_append_all _ a _ hane, List.dropWhile_cons,
        if_neg (by decide)]
    rw [stripLeadingName_eval_paren cmd _ _ hpre h1 hmem, h2]
    simp only [List.drop_one, List.tail_cons]
    rw [dropWhile_append_all pyIsSpace ws2 r hws2, dropWhile_head_not pyIsSpace r hr]
  · intro cmd ws r hws hr
    have hpre : cmd.isPrefixOf (cmd ++ (ws ++ r)) = true :=
      List.isPrefixOf_iff_prefix.mpr (List.prefix_append _ _)
    have h1 : ((cmd ++ (ws ++ r)).drop cmd.length).dropWhile pyIsSpace = r := by
      rw [List.drop_left, dropWhile_append_all pyIsSpace ws r hws,
        dropWhile_head_not pyIsSpace r (fun c hc => (hr c hc).1)]
    have hhead : r.head? ≠ some '(' := by
      cases r with
      | nil => simp
      | cons c t =>
        intro hco
        exact (hr c rfl).2 (by simpa using hco)
    exact stripLeadingName_eval_plain cmd _ r hpre h1 hhead

/-- C6 witness: a concrete input not starting with the command name is
left unchanged. -/
theorem c6_strip_leading_name_witness :
    stripLeadingName (str "ab") (str "xy") = str "xy" :=
  c6_strip_leading_name.2.1 (str "ab") (str "xy") (by decide)

/-- C7: the leading-name-stripping step is idempotent on every input that
does not start with the command name. -/
theorem c7_strip_idempotent (cmd v : Str) (h : cmd.isPrefixOf v = false) :
    stripLeadingName cmd (stripLeadingName cmd v) = stripLeadingName cmd v := by
  rw [stripLeadingName_no_match cmd v h, stripLeadingName_no_match cmd v h]

/-- C7 witness: a concrete input not starting with the command name. -/
theorem c7_strip_idempotent_witness :
    (str "git").isPrefixOf (str "abc") = false ∧
    stripLeadingName (str "git") (stripLeadingName (str "git") (str "abc"))
      = stripLeadingName (str "git") (str "abc") :=
  ⟨by decide, c7_strip_idempotent (str "git") (str "abc") (by decide)⟩

/-- C8: a first token of `-v` or `--version` prints `has v2.0.0` and
exits with status 0 regardless of later tokens; when the first token does
not start with `-`, every token — including later tokens beginning with
`-` — is probed as a command name, producing one `detect_command` line
each. -/
theorem c8_first_token_only (k : Colors) (env : Env) (rest : List Str)
    (a1 : Str) :
    main k env (str "-v" :: rest) = (0, [str "has v2.0.0"]) ∧
    main k env (str "--version" :: rest) = (0, [str "has v2.0.0"]) ∧
    (pyStartsWithDash a1 = false →
      (main k env (a1 :: rest)).2
        = (a1 :: rest).map (fun c => (detect_command k env c).2.1)) := by
  refine ⟨rfl, rfl, ?_⟩
  intro h
  have hm : main k env (a1 :: rest) = runAll k env (a1 :: rest) := by
    simp [main, h]
  rw [hm, runAll_lines]

/-- C8 witness: later tokens after `-v` are ignored, and a later `-x`
token after a command name is probed, not parsed as an option. -/
theorem c8_first_token_only_witness :
    main plainColors envAllMissing [str "-v", str "-x"]
        = (0, [str "has v2.0.0"]) ∧
    main plainColors envAllMissing [str "--version", str "-x"]
        = (0, [str "has v2.0.0"]) ∧
    (main plainColors envAllMissing [str "git", str "-x"]).2
        = [str "git", str "-x"].map
            (fun c => (detect_command plainColors envAllMissing c).2.1) :=
  ⟨(c8_first_token_only plainColors envAllMissing [str "-x"] (str "git")).1,
   (c8_first_token_only plainColors envAllMissing [str "-x"] (str "git")).2.1,
   (c8_first_token_only plainColors envAllMissing [str "-x"] (str "git")).2.2
     (by decide)⟩

/-- C9: for `node`, when the special-case invocation exits with status 0,
its trimmed stdout is returned at once — the spawn trace is that single
argv, so neither the shell-builtin check nor the flag sweep runs — even
when the trimmed output is empty; an empty string returned this way makes
the driver print the found-without-version line. -/
theorem c9_node_empty_ok (k : Colors) (env : Env) (r : RunResult)
    (hw : env.which (str "node") = true)
    (hrun : env.run (nodeArgv (str "node")) = some r)
    (hrc : r.returncode = 0) :
    get_command_version env (str "node")
        = (some (pyStrip r.stdout), [nodeArgv (str "node")]) ∧
    (pyStrip r.stdout = [] →
      detect_command k env (str "node")
        = (true, passMark k ++ str " " ++ str "node" ++ k.reset,
            [nodeArgv (str "node")])) := by
  have h1 : get_command_version env (str "node")
      = (some (pyStrip r.stdout), [nodeArgv (str "node")]) := by
    simp [get_command_version, hrun, hrc]
  refine ⟨h1, ?_⟩
  intro he
  simp [detect_command, hw, h1, he]

/-- C9 witness: a `node` that prints only whitespace with exit status 0
is reported found, without version text, after a single spawn. -/
theorem c9_node_empty_ok_witness :
    get_command_version envNode (str "node")
        = (some (pyStrip (str " \n")), [nodeArgv (str "node")]) ∧
    detect_command plainColors envNode (str "node")
        = (true, passMark plainColors ++ str " " ++ str "node"
            ++ plainColors.reset, [nodeArgv (str "node")]) := by
  have h := c9_node_empty_ok plainColors envNode ⟨0, str " \n"⟩
    (by decide) (by decide) rfl
  exact ⟨h.1, h.2 (by decide)⟩

/-- C10: the driver chooses the with-version line format by testing the
extracted version for non-emptiness before prefix stripping; a found
command whose extracted version is non-empty but strips to the empty
string gets the with-version format with empty version text — with empty
decorations the line ends in a trailing space after the name. -/
theorem c10_emptiness_checked_early (k : Colors) (env : Env) (cmd v0 : Str)
    (hw : env.which cmd = true)
    (hv : (get_command_version env cmd).1 = some v0)
    (hne : v0 ≠ [])
    (hstrip : stripLeadingName cmd v0 = []) :
    (detect_command k env cmd).2.1
        = passMark k ++ str " " ++ cmd ++ k.reset ++ str " " ++ k.reset ∧
    (k.reset = [] → ((detect_command k env cmd).2.1).getLast? = some ' ') := by
  have hd : displayVersion cmd v0 = [] := by
    simp [displayVersion, hstrip, truncateVersion]
  have hline : (detect_command k env cmd).2.1
      = passMark k ++ str " " ++ cmd ++ k.reset ++ str " " ++ k.reset := by
    simp [detect_command, hw, hv, hne, hd]
  refine ⟨hline, ?_⟩
  intro hre
  have hs : (str " ").getLast? = some ' ' := rfl
  rw [hline, hre]
  simp [List.getLast?_append, hs]

/-- C10 witness: a `git` whose `--version` output is exactly `git` is
shown with the with-version format and empty version text: the line ends
in a trailing space. -/
theorem c10_emptiness_checked_early_witness :
    (detect_command plainColors envGitBare (str "git")).2.1
        = passMark plainColors ++ str " " ++ str "git" ++ plainColors.reset
            ++ str " " ++ plainColors.reset ∧
    ((detect_command plainColors envGitBare (str "git")).2.1).getLast?
        = some ' ' := by
  have h := c10_emptiness_checked_early plainColors envGitBare
    (str "git") (str "git") (by decide) (by decide) (by decide) (by decide)
  exact ⟨h.1, h.2 rfl⟩

end Has
